import Mathlib

/-!
Shallow embedding of the quantitative assessment engine of
`PYAIGuardian.py` (class `AIEthicsFramework`): the fairness-metric
calculators and the robustness probes, together with proofs of the
claims of the spec about them.

Numeric values (predictions, rates, noise) are modelled as rationals;
categorical attribute values as strings.  A Python exception is
modelled as the `error` branch of `Except`.
-/

/-- Python exceptions observable from the embedded code, plus the
taxonomy entry `SchemaError` of the spec itself (which the source never
raises) so that claims naming it can be stated. -/
inductive PyError where
  | keyError : String → PyError
  | attributeError : String → PyError
  | valueError : String → PyError
  | schemaError : PyError
deriving DecidableEq

/-- A pandas DataFrame, column-oriented: a list of named columns of
categorical values.  (Only categorical columns are ever accessed by
the fairness code.) -/
structure DataFrame where
  cols : List (String × List String)
deriving DecidableEq

/-- Column selection `data[attribute]`: pandas selection; raises `KeyError`
naming the attribute when the column is absent. -/
def DataFrame.col (df : DataFrame) (a : String) : Except PyError (List String) :=
  match df.cols.lookup a with
  | some v => .ok v
  | none => .error (.keyError a)

/-- Embedding of `np.mean` over a vector of rationals: `NaN` (here `none`) on an
empty vector, otherwise sum divided by length. -/
def npMean (xs : List ℚ) : Option ℚ :=
  if xs.length = 0 then none else some (xs.sum / (xs.length : ℚ))

/-- Embedding of `pandas.Series.unique()`: the distinct values of a column in
order of first appearance. -/
def uniqueVals (xs : List String) : List String :=
  xs.foldl (fun acc x => if x ∈ acc then acc else acc ++ [x]) []

/-- Selection `predictions[group_mask]` where `group_mask = data[attribute] == group`:
the predictions at the indices whose attribute value equals `g`.
(numpy requires the mask and the predictions to have equal length;
the theorems below carry that alignment as a hypothesis.) -/
def maskSelect (col : List String) (preds : List ℚ) (g : String) : List ℚ :=
  ((col.zip preds).filter (fun p => p.1 == g)).map Prod.snd

/-- Embedding of `np.mean(predictions[group_mask])` (src line 72).  For every
group produced by `unique()` the selection is nonempty whenever the
predictions are index-aligned with the column, so the division below
is never 0/0 in any reachable state. -/
def groupAcceptanceRate (col : List String) (preds : List ℚ) (g : String) : ℚ :=
  let sel := maskSelect col preds g
  sel.sum / (sel.length : ℚ)

/-- The dict `group_acceptance_rates` of src lines 69-73, as the list
of its values in insertion order (one per distinct attribute value). -/
def groupRates (col : List String) (preds : List ℚ) : List ℚ :=
  (uniqueVals col).map (groupAcceptanceRate col preds)

/-- Python `max(...)` over a sequence of rationals: `ValueError` on an
empty sequence, otherwise a left fold of the binary max. -/
def pyMax : List ℚ → Except PyError ℚ
  | [] => .error (.valueError "max() arg is an empty sequence")
  | x :: xs => .ok (xs.foldl max x)

/-- Python `min(...)`, dually. -/
def pyMin : List ℚ → Except PyError ℚ
  | [] => .error (.valueError "min() arg is an empty sequence")
  | x :: xs => .ok (xs.foldl min x)

/-- The body of the `for attribute in sensitive_attributes` loop
(src lines 69-76) for the column of one attribute: per-group acceptance
rates, then `1 - (max - min)`.  No clamping is performed by the
source. -/
def demographicParityAttr (col : List String) (preds : List ℚ) : Except PyError ℚ := do
  let mx ← pyMax (groupRates col preds)
  let mn ← pyMin (groupRates col preds)
  pure (1 - (mx - mn))

/-- Body of `_calculate_demographic_parity` (src lines 49-78) with the
prediction vector made explicit: the source computes
`predictions = model.predict(data)` once and then uses only
`predictions`, `data` and the attribute list.  The unused
`overall_acceptance_rate` of src line 65 is kept as a dead binding. -/
def calculateDemographicParityFromPreds (predictions : List ℚ) (data : DataFrame)
    (sensitiveAttributes : List String) : Except PyError (List (String × ℚ)) :=
  let _overall := npMean predictions
  sensitiveAttributes.foldlM (fun acc a => do
    let col ← data.col a
    let s ← demographicParityAttr col predictions
    pure (acc ++ [(a, s)])) []

/-- Method `_calculate_demographic_parity` (src lines 49-78). -/
def calculateDemographicParity (model : DataFrame → List ℚ) (data : DataFrame)
    (sensitiveAttributes : List String) : Except PyError (List (String × ℚ)) :=
  calculateDemographicParityFromPreds (model data) data sensitiveAttributes

/-- The methods defined (with a `def`) in class `AIEthicsFramework`. -/
def definedMethods : List String :=
  ["__init__", "assess_fairness", "_calculate_demographic_parity",
   "assess_transparency", "_check_model_architecture_disclosure",
   "assess_privacy", "_check_data_minimization",
   "assess_robustness", "_check_adversarial_robustness", "evaluate"]

/-- Python attribute lookup `self.<name>` on an `AIEthicsFramework`
instance: succeeds exactly for the methods defined in the class,
otherwise raises `AttributeError` naming the attribute. -/
def attrLookup (name : String) : Except PyError Unit :=
  if name ∈ definedMethods then .ok () else .error (.attributeError name)

/-- Clamping to the unit interval, as the wording of the spec requires
(the source itself never clamps). -/
def clamp01 (x : ℚ) : ℚ := max 0 (min 1 x)

/-- Method `assess_fairness` (src lines 29-47).  Src line 43 calls
`_calculate_demographic_parity` (defined, may itself raise, e.g.
`KeyError`); src lines 44-45 look up `_calculate_equal_opportunity`
and `_calculate_disparate_impact` on `self`, and neither name is a
method of the class (see `definedMethods`), so the first of those
lookups raises `AttributeError` and the `return` is never reached.
The `pure` below sits in dead code and stands for the unreachable
three-entry metrics dict. -/
def assessFairness (model : DataFrame → List ℚ) (data : DataFrame)
    (sensitiveAttributes : List String) : Except PyError (List (String × ℚ)) := do
  let dp ← calculateDemographicParity model data sensitiveAttributes
  let _ ← attrLookup "_calculate_equal_opportunity"
  let _ ← attrLookup "_calculate_disparate_impact"
  pure dp

/-- Modelled from the spec: `_calculate_disparate_impact` is invoked
by `assess_fairness` (src line 45) but defined nowhere in the source.
Spec §4.2: the score for one attribute is the ratio of the minimum
group acceptance rate to the maximum group acceptance rate, and when
the maximum group rate is zero the ratio is defined as 1.0 (no
disparity detectable).  Group rates are taken exactly as in the
demographic-parity code; with fewer than one group (empty column) the
score defaults to 1.0 as for the other single-group edge cases. -/
def disparateImpactAttr (col : List String) (preds : List ℚ) : ℚ :=
  match pyMax (groupRates col preds), pyMin (groupRates col preds) with
  | .ok mx, .ok mn => if mx = 0 then 1 else mn / mx
  | _, _ => 1

/-! ## Robustness probes

`test_data` is a numpy array of numeric features, modelled as a list
of rows of rationals.  Randomness is made explicit: a noise matrix of
standard-normal draws is an input, and `np.random.normal(0, scale,
shape)` is `scale` times such draws (so scale 0 yields exactly 0). -/

/-- Embedding of `np.random.normal(0, scale, shape)` given the standard-normal
draw for each position: location 0 plus `scale` times the draw. -/
def gaussianNoise (scale : ℚ) (draws : List (List ℚ)) : List (List ℚ) :=
  draws.map (List.map (fun z => scale * z))

/-- Elementwise matrix addition (`test_data + noise`). -/
def addNoise (data noise : List (List ℚ)) : List (List ℚ) :=
  List.zipWith (fun r n => List.zipWith (· + ·) r n) data noise

/-- Perturbation `test_data + np.random.normal(0, scale, test_data.shape)`
(src line 181, with the hard-coded `epsilon = 0.1` generalized to a
`scale` parameter; in the source the draw matrix has exactly the
shape of `test_data`). -/
def perturbDataset (testData : List (List ℚ)) (scale : ℚ)
    (draws : List (List ℚ)) : List (List ℚ) :=
  addNoise testData (gaussianNoise scale draws)

/-- Entry `i j` of a matrix (0 outside the carrier). -/
def entry (m : List (List ℚ)) (i j : Nat) : ℚ := (m.getD i []).getD j 0

/-- Embedding of `np.mean` of a boolean vector (`original_predictions ==
perturbed_predictions`): the fraction of `true` entries; `NaN`
(`none`) on an empty vector. -/
def npMeanBool (xs : List Bool) : Option ℚ :=
  if xs.length = 0 then none else some ((xs.count true : ℚ) / (xs.length : ℚ))

/-- Prediction-agreement rate between the original data and its
perturbation at a given noise scale: the body of
`_check_adversarial_robustness` with the scale as a parameter. -/
def agreementAtScale (model : List (List ℚ) → List ℚ) (testData : List (List ℚ))
    (scale : ℚ) (draws : List (List ℚ)) : Option ℚ :=
  let perturbed := perturbDataset testData scale draws
  let originalPredictions := model testData
  let perturbedPredictions := model perturbed
  npMeanBool (List.zipWith (fun a b => decide (a = b))
    originalPredictions perturbedPredictions)

/-- Method `_check_adversarial_robustness` (src lines 169-185): agreement
rate at the hard-coded `epsilon = 0.1`. -/
def checkAdversarialRobustness (model : List (List ℚ) → List ℚ)
    (testData draws : List (List ℚ)) : Option ℚ :=
  agreementAtScale model testData (1/10) draws

/-- Method `assess_robustness` (src lines 149-167).  The first checklist
entry calls `_check_adversarial_robustness` (defined, pure); its
second entry looks up `_check_out_of_distribution_performance` on
`self`, a name defined nowhere in the class (see `definedMethods`),
so the lookup raises `AttributeError`; the third lookup and the
`sum(checklist) / len(checklist)` line are never reached.  The
`pure` below sits in dead code and stands for that unreachable
aggregate. -/
def assessRobustness (model : List (List ℚ) → List ℚ)
    (testData draws : List (List ℚ)) : Except PyError ℚ := do
  let _adv := checkAdversarialRobustness model testData draws
  let _ ← attrLookup "_check_out_of_distribution_performance"
  let _ ← attrLookup "_check_stability_under_data_perturbations"
  pure 0

/-- Modelled from the spec: `_check_out_of_distribution_performance`
is invoked by `assess_robustness` (src line 163) but defined nowhere
in the source.  Spec §4.4: the same agreement computation as the
adversarial check, against a caller-supplied out-of-distribution
dataset rather than a perturbed one (the `SchemaError` the spec demands on a
schema mismatch is not modelled; only the score is needed here). -/
def checkOutOfDistributionPerformance (model : List (List ℚ) → List ℚ)
    (testData oodData : List (List ℚ)) : Option ℚ :=
  npMeanBool (List.zipWith (fun a b => decide (a = b))
    (model testData) (model oodData))

/-- Sequencing of an option-valued map over a list (plumbing for the
spec-modelled stability check). -/
def optionMapList (f : α → Option β) : List α → Option (List β)
  | [] => some []
  | x :: xs =>
    match f x with
    | none => none
    | some y =>
      match optionMapList f xs with
      | none => none
      | some ys => some (y :: ys)

/-- Modelled from the spec: `_check_stability_under_data_perturbations`
is invoked by `assess_robustness` (src line 164) but defined nowhere
in the source.  Spec §4.4: runs the adversarial check across multiple
perturbation scales and reports the mean agreement rate.  Each scale
comes with its own standard-normal draw matrix. -/
def checkStabilityUnderDataPerturbations (model : List (List ℚ) → List ℚ)
    (testData : List (List ℚ)) (runs : List (ℚ × List (List ℚ))) : Option ℚ :=
  match optionMapList (fun run => agreementAtScale model testData run.1 run.2) runs with
  | none => none
  | some scores => npMean scores

/-- Modelled from the spec: `assess_robustness` as specified — the
aggregation `sum(checklist) / len(checklist)` of src lines 161-166
over the three sub-checks, with the two sub-checks missing from the
source modelled from spec §4.4. -/
def assessRobustnessSpec (model : List (List ℚ) → List ℚ)
    (testData draws oodData : List (List ℚ))
    (runs : List (ℚ × List (List ℚ))) : Option ℚ :=
  match checkAdversarialRobustness model testData draws,
        checkOutOfDistributionPerformance model testData oodData,
        checkStabilityUnderDataPerturbations model testData runs with
  | some a, some b, some c => some ((a + b + c) / 3)
  | _, _, _ => none

/-- The frame property asserted of the perturbation: given a
designation of which columns are numeric features, every entry of a
non-numeric (categorical / sensitive) column of the perturbed dataset
is identical to the original.  The source adds one noise sample to
every entry, so this fails for any nonzero draw on such a column. -/
def preservesCategoricalFields (isNumericCol : Nat → Bool) : Prop :=
  ∀ testData draws i j, isNumericCol j = false →
    entry (perturbDataset testData (1/10) draws) i j = entry testData i j

/-- The concrete four-record dataset of the end-to-end test in the spec:
attribute `region` with values A, A, B, B. -/
def regionDF : DataFrame := ⟨[("region", ["A", "A", "B", "B"])]⟩

/-! ## Helper lemmas -/

theorem foldl_max_mem (x : ℚ) (xs : List ℚ) : xs.foldl max x ∈ x :: xs := by
  induction xs generalizing x with
  | nil => simp
  | cons a as ih =>
    have h := ih (max x a)
    rcases List.mem_cons.1 h with h1 | h1
    · rcases max_choice x a with hm | hm <;> rw [List.foldl_cons, h1, hm] <;> simp
    · simp [List.foldl_cons, List.mem_cons.2 (Or.inr h1)]

theorem le_foldl_max (x : ℚ) (xs : List ℚ) : x ≤ xs.foldl max x := by
  induction xs generalizing x with
  | nil => simp
  | cons a as ih => exact le_trans (le_max_left x a) (ih (max x a))

theorem le_foldl_max_of_mem {y : ℚ} {xs : List ℚ} (x : ℚ) (h : y ∈ xs) :
    y ≤ xs.foldl max x := by
  induction xs generalizing x with
  | nil => cases h
  | cons a as ih =>
    rcases List.mem_cons.1 h with h1 | h1
    · subst h1
      exact le_trans (le_max_right x y) (le_foldl_max (max x y) as)
    · exact ih (max x a) h1

theorem foldl_min_mem (x : ℚ) (xs : List ℚ) : xs.foldl min x ∈ x :: xs := by
  induction xs generalizing x with
  | nil => simp
  | cons a as ih =>
    have h := ih (min x a)
    rcases List.mem_cons.1 h with h1 | h1
    · rcases min_choice x a with hm | hm <;> rw [List.foldl_cons, h1, hm] <;> simp
    · simp [List.foldl_cons, List.mem_cons.2 (Or.inr h1)]

theorem foldl_min_le (x : ℚ) (xs : List ℚ) : xs.foldl min x ≤ x := by
  induction xs generalizing x with
  | nil => simp
  | cons a as ih => exact le_trans (ih (min x a)) (min_le_left x a)

theorem foldl_min_le_of_mem {y : ℚ} {xs : List ℚ} (x : ℚ) (h : y ∈ xs) :
    xs.foldl min x ≤ y := by
  induction xs generalizing x with
  | nil => cases h
  | cons a as ih =>
    rcases List.mem_cons.1 h with h1 | h1
    · subst h1
      exact le_trans (foldl_min_le (min x y) as) (min_le_right x y)
    · exact ih (min x a) h1

theorem pyMax_spec {l : List ℚ} (h : l ≠ []) :
    ∃ m, pyMax l = .ok m ∧ m ∈ l ∧ ∀ y ∈ l, y ≤ m := by
  match l with
  | [] => exact absurd rfl h
  | x :: xs =>
    refine ⟨xs.foldl max x, rfl, foldl_max_mem x xs, ?_⟩
    intro y hy
    rcases List.mem_cons.1 hy with h1 | h1
    · subst h1; exact le_foldl_max y xs
    · exact le_foldl_max_of_mem x h1

theorem pyMin_spec {l : List ℚ} (h : l ≠ []) :
    ∃ m, pyMin l = .ok m ∧ m ∈ l ∧ ∀ y ∈ l, m ≤ y := by
  match l with
  | [] => exact absurd rfl h
  | x :: xs =>
    refine ⟨xs.foldl min x, rfl, foldl_min_mem x xs, ?_⟩
    intro y hy
    rcases List.mem_cons.1 hy with h1 | h1
    · subst h1; exact foldl_min_le y xs
    · exact foldl_min_le_of_mem x h1

/-- The arithmetic mean of a list of values in `[0, 1]` lies in
`[0, 1]` (with the empty-list division `0 / 0 = 0` also in range). -/
theorem mean_mem_unit {l : List ℚ} (h : ∀ x ∈ l, 0 ≤ x ∧ x ≤ 1) :
    0 ≤ l.sum / (l.length : ℚ) ∧ l.sum / (l.length : ℚ) ≤ 1 := by
  rcases eq_or_ne l [] with hl | hl
  · subst hl; simp
  · have hpos : (0 : ℚ) < (l.length : ℚ) := by
      have := List.length_pos.2 hl
      exact_mod_cast this
    have hsum0 : 0 ≤ l.sum := List.sum_nonneg (fun x hx => (h x hx).1)
    have hsum1 : l.sum ≤ (l.length : ℚ) := by
      have := List.sum_le_card_nsmul l 1 (fun x hx => (h x hx).2)
      simpa using this
    exact ⟨div_nonneg hsum0 hpos.le, (div_le_one hpos).2 hsum1⟩

theorem maskSelect_subset {col : List String} {preds : List ℚ} {g : String}
    {x : ℚ} (h : x ∈ maskSelect col preds g) : x ∈ preds := by
  unfold maskSelect at h
  rcases List.mem_map.1 h with ⟨p, hp, hpx⟩
  have hz := List.mem_filter.1 hp
  exact hpx ▸ (List.of_mem_zip hz.1).2

theorem groupAcceptanceRate_mem_unit {col : List String} {preds : List ℚ}
    (hp : ∀ x ∈ preds, 0 ≤ x ∧ x ≤ 1) (g : String) :
    0 ≤ groupAcceptanceRate col preds g ∧ groupAcceptanceRate col preds g ≤ 1 := by
  unfold groupAcceptanceRate
  exact mean_mem_unit (fun x hx => hp x (maskSelect_subset hx))

theorem groupRates_mem_unit {col : List String} {preds : List ℚ}
    (hp : ∀ x ∈ preds, 0 ≤ x ∧ x ≤ 1) :
    ∀ r ∈ groupRates col preds, 0 ≤ r ∧ r ≤ 1 := by
  intro r hr
  rcases List.mem_map.1 hr with ⟨g, _, hg⟩
  exact hg ▸ groupAcceptanceRate_mem_unit hp g

theorem uniqueVals_foldl_ne_nil (xs acc : List String) (h : acc ≠ []) :
    xs.foldl (fun acc x => if x ∈ acc then acc else acc ++ [x]) acc ≠ [] := by
  induction xs generalizing acc with
  | nil => exact h
  | cons a as ih =>
    rw [List.foldl_cons]
    by_cases ha : a ∈ acc
    · simpa [ha] using ih acc h
    · simp only [ha, if_false]
      exact ih (acc ++ [a]) (by simp)

theorem uniqueVals_ne_nil {col : List String} (h : col ≠ []) :
    uniqueVals col ≠ [] := by
  match col with
  | [] => exact absurd rfl h
  | c :: cs =>
    show (c :: cs).foldl (fun acc x => if x ∈ acc then acc else acc ++ [x]) [] ≠ []
    rw [List.foldl_cons]
    exact uniqueVals_foldl_ne_nil cs _ (by simp)

theorem groupRates_ne_nil {col : List String} (preds : List ℚ) (h : col ≠ []) :
    groupRates col preds ≠ [] := by
  unfold groupRates
  simpa using uniqueVals_ne_nil h


/-! ## Claim theorems: fairness -/

/-- Claim C1: for every attribute column and prediction vector over the
domain of the data model (at least one record, predictions index-aligned and
in [0,1]), the demographic-parity score equals 1 minus the difference
between the maximum and minimum per-group acceptance rates, clamped to
[0,1]; and on the four-record `region` dataset of the spec, predictions
[1,1,0,0] yield score 0.0 and predictions [1,0,1,0] yield score 1.0. -/
theorem demographic_parity_formula_and_examples :
    (∀ (col : List String) (preds : List ℚ), col ≠ [] →
      preds.length = col.length → (∀ x ∈ preds, 0 ≤ x ∧ x ≤ 1) →
      ∃ mx mn, pyMax (groupRates col preds) = .ok mx ∧
        pyMin (groupRates col preds) = .ok mn ∧
        demographicParityAttr col preds = .ok (clamp01 (1 - (mx - mn)))) ∧
    calculateDemographicParity (fun _ => [1, 1, 0, 0]) regionDF ["region"]
      = .ok [("region", 0)] ∧
    calculateDemographicParity (fun _ => [1, 0, 1, 0]) regionDF ["region"]
      = .ok [("region", 1)] := by
  refine ⟨?_, ?_, ?_⟩
  · intro col preds hcol _halign hp
    obtain ⟨mx, hmx, hmxmem, hmxub⟩ := pyMax_spec (groupRates_ne_nil preds hcol)
    obtain ⟨mn, hmn, hmnmem, hmnlb⟩ := pyMin_spec (groupRates_ne_nil preds hcol)
    refine ⟨mx, mn, hmx, hmn, ?_⟩
    have hmx1 : mx ≤ 1 := (groupRates_mem_unit hp mx hmxmem).2
    have hmn0 : 0 ≤ mn := (groupRates_mem_unit hp mn hmnmem).1
    have hle : mn ≤ mx := hmnlb mx hmxmem
    have hv0 : 0 ≤ 1 - (mx - mn) := by linarith
    have hv1 : 1 - (mx - mn) ≤ 1 := by linarith
    have hcl : clamp01 (1 - (mx - mn)) = 1 - (mx - mn) := by
      unfold clamp01; rw [min_eq_right hv1, max_eq_right hv0]
    rw [hcl]
    simp [demographicParityAttr, hmx, hmn, Except.bind, bind, pure, Except.pure]
  · have h2 : maskSelect ["A", "A", "B", "B"] [1, 1, 0, 0] "A" = [1, 1] := by
      simp [maskSelect]
    have h3 : maskSelect ["A", "A", "B", "B"] [1, 1, 0, 0] "B" = [0, 0] := by
      simp [maskSelect]
    have h4 : groupRates ["A", "A", "B", "B"] [1, 1, 0, 0] = [1, 0] := by
      simp [groupRates, show uniqueVals ["A", "A", "B", "B"] = ["A", "B"] by decide,
        groupAcceptanceRate, h2, h3]
    simp [calculateDemographicParity, calculateDemographicParityFromPreds, DataFrame.col,
      regionDF, List.lookup, demographicParityAttr, h4, pyMax, pyMin, Except.bind, bind,
      pure, Except.pure, List.foldlM]
  · have h2 : maskSelect ["A", "A", "B", "B"] [1, 0, 1, 0] "A" = [1, 0] := by
      simp [maskSelect]
    have h3 : maskSelect ["A", "A", "B", "B"] [1, 0, 1, 0] "B" = [1, 0] := by
      simp [maskSelect]
    have h4 : groupRates ["A", "A", "B", "B"] [1, 0, 1, 0] = [1/2, 1/2] := by
      simp [groupRates, show uniqueVals ["A", "A", "B", "B"] = ["A", "B"] by decide,
        groupAcceptanceRate, h2, h3]
    simp [calculateDemographicParity, calculateDemographicParityFromPreds, DataFrame.col,
      regionDF, List.lookup, demographicParityAttr, h4, pyMax, pyMin, Except.bind, bind,
      pure, Except.pure, List.foldlM]

/-- Witness for C1: the universal part instantiated at the two-record
column A, B with predictions 1, 0. -/
theorem demographic_parity_formula_witness :
    ∃ mx mn, pyMax (groupRates ["A", "B"] [1, 0]) = .ok mx ∧
      pyMin (groupRates ["A", "B"] [1, 0]) = .ok mn ∧
      demographicParityAttr ["A", "B"] [1, 0] = .ok (clamp01 (1 - (mx - mn))) :=
  demographic_parity_formula_and_examples.1 ["A", "B"] [1, 0]
    (by decide) (by decide) (by norm_num)

/-- Claim C4: when a sensitive attribute has exactly one distinct
value, the demographic-parity score for that attribute is 1.0 — an
ordinary score, not an error. -/
theorem single_group_parity_is_one (model : DataFrame → List ℚ) (data : DataFrame)
    (a : String) (col : List String) (v : String)
    (hcol : data.col a = .ok col) (huniq : uniqueVals col = [v]) :
    calculateDemographicParity model data [a] = .ok [(a, 1)] := by
  have hr : groupRates col (model data) = [groupAcceptanceRate col (model data) v] := by
    simp [groupRates, huniq]
  simp [calculateDemographicParity, calculateDemographicParityFromPreds, List.foldlM,
    hcol, demographicParityAttr, hr, pyMax, pyMin, Except.bind, bind, pure, Except.pure]

/-- Witness for C4: a two-record dataset whose `g` column has the
single distinct value A scores 1.0. -/
theorem single_group_parity_is_one_witness :
    calculateDemographicParity (fun _ => [1, 0]) ⟨[("g", ["A", "A"])]⟩ ["g"]
      = .ok [("g", 1)] :=
  single_group_parity_is_one (fun _ => [1, 0]) ⟨[("g", ["A", "A"])]⟩ "g"
    ["A", "A"] "A" rfl (by decide)

/-- Claim C10: the demographic-parity computation is a pure function
of the prediction vector, the dataset, and the attribute list — two
runs on identical inputs produce identical score maps. -/
theorem demographic_parity_deterministic (p₁ p₂ : List ℚ) (d₁ d₂ : DataFrame)
    (a₁ a₂ : List String) (hp : p₁ = p₂) (hd : d₁ = d₂) (ha : a₁ = a₂) :
    calculateDemographicParityFromPreds p₁ d₁ a₁
      = calculateDemographicParityFromPreds p₂ d₂ a₂ := by
  subst hp; subst hd; subst ha; rfl

/-- Witness for C10: two runs on the four-record dataset of the spec. -/
theorem demographic_parity_deterministic_witness :
    calculateDemographicParityFromPreds [1, 1, 0, 0] regionDF ["region"]
      = calculateDemographicParityFromPreds [1, 1, 0, 0] regionDF ["region"] :=
  demographic_parity_deterministic [1, 1, 0, 0] [1, 1, 0, 0] regionDF regionDF
    ["region"] ["region"] rfl rfl rfl

/-- Counterexample for C5: on the four-record `region` dataset, asking
for the absent attribute `age` fails with `KeyError "age"` — not with
the `SchemaError` of the spec. -/
theorem missing_attribute_schemaerror_counterexample :
    calculateDemographicParity (fun _ => [1, 1, 0, 0]) regionDF ["age"]
      = .error (.keyError "age") ∧
    (Except.error (PyError.keyError "age") : Except PyError (List (String × ℚ)))
      ≠ .error .schemaError :=
  ⟨rfl, by simp⟩

/-- Claim C5 as amended: a requested attribute absent from the
columns of the dataset makes the computation fail with `KeyError` naming
that attribute (the pandas missing-column error), raised when the
attribute is reached in the per-attribute loop — not an eagerly
raised `SchemaError`. -/
theorem missing_attribute_raises_keyerror (model : DataFrame → List ℚ)
    (data : DataFrame) (a : String) (rest : List String)
    (h : data.cols.lookup a = none) :
    calculateDemographicParity model data (a :: rest) = .error (.keyError a) := by
  simp [calculateDemographicParity, calculateDemographicParityFromPreds, List.foldlM,
    DataFrame.col, h, Except.bind, bind]

/-- Witness for the amended statement of C5: the `age` lookup on the
`region` dataset. -/
theorem missing_attribute_raises_keyerror_witness :
    calculateDemographicParity (fun _ => [1, 1, 0, 0]) regionDF ["age"]
      = .error (.keyError "age") :=
  missing_attribute_raises_keyerror (fun _ => [1, 1, 0, 0]) regionDF "age" [] rfl

/-- Claim C2 as stated: for every model, dataset, and argument list,
each of `assess_fairness` and `assess_robustness` raises
`AttributeError` (and so never returns a report). -/
def alwaysAttributeErrorClaim : Prop :=
  (∀ (model : DataFrame → List ℚ) (data : DataFrame) (attrs : List String),
    ∃ s, assessFairness model data attrs = .error (.attributeError s)) ∧
  (∀ (model : List (List ℚ) → List ℚ) (testData draws : List (List ℚ)),
    ∃ s, assessRobustness model testData draws = .error (.attributeError s))

/-- Counterexample for C2: `assess_fairness` does not raise
`AttributeError` on *every* call — when a requested attribute is
absent, the demographic-parity step raises `KeyError` first (here:
attribute `age` on the `region` dataset). -/
theorem assess_methods_attributeerror_counterexample : ¬ alwaysAttributeErrorClaim := by
  intro h
  obtain ⟨s, hs⟩ := h.1 (fun _ => [1, 1, 0, 0]) regionDF ["age"]
  have hk : assessFairness (fun _ => [1, 1, 0, 0]) regionDF ["age"]
      = .error (.keyError "age") := rfl
  rw [hk] at hs
  exact PyError.noConfusion (Except.error.inj hs)

/-- Claim C2 as amended: neither method ever returns a report;
`assess_robustness` always raises `AttributeError` for the undefined
`_check_out_of_distribution_performance`, and `assess_fairness`
raises `AttributeError` for the undefined
`_calculate_equal_opportunity` on every call on which the
demographic-parity step itself succeeds (otherwise it propagates that
earlier error of that step, e.g. `KeyError`). -/
theorem assess_methods_never_return :
    (∀ (model : DataFrame → List ℚ) (data : DataFrame) (attrs : List String) r,
      assessFairness model data attrs ≠ .ok r) ∧
    (∀ (model : DataFrame → List ℚ) (data : DataFrame) (attrs : List String) dp,
      calculateDemographicParity model data attrs = .ok dp →
      assessFairness model data attrs
        = .error (.attributeError "_calculate_equal_opportunity")) ∧
    (∀ (model : List (List ℚ) → List ℚ) (testData draws : List (List ℚ)),
      assessRobustness model testData draws
        = .error (.attributeError "_check_out_of_distribution_performance")) := by
  have hlook : attrLookup "_calculate_equal_opportunity"
      = .error (.attributeError "_calculate_equal_opportunity") := rfl
  refine ⟨?_, ?_, ?_⟩
  · intro model data attrs r hok
    unfold assessFairness at hok
    cases hdp : calculateDemographicParity model data attrs with
    | error e => rw [hdp] at hok; exact Except.noConfusion hok
    | ok dp =>
      rw [hdp] at hok
      simp [Except.bind, bind, hlook] at hok
  · intro model data attrs dp hdp
    simp [assessFairness, hdp, Except.bind, bind, hlook]
  · intro model testData draws
    rfl

/-- Witness for the amended statement of C2: concrete calls showing the
two `AttributeError` results and one non-report result. -/
theorem assess_methods_never_return_witness :
    assessFairness (fun _ => [1, 1, 0, 0]) regionDF [] ≠ .ok [] ∧
    assessFairness (fun _ => [1, 1, 0, 0]) regionDF []
      = .error (.attributeError "_calculate_equal_opportunity") ∧
    assessRobustness (fun _ => [1]) [[1]] [[0]]
      = .error (.attributeError "_check_out_of_distribution_performance") :=
  ⟨assess_methods_never_return.1 (fun _ => [1, 1, 0, 0]) regionDF [] [],
   assess_methods_never_return.2.1 (fun _ => [1, 1, 0, 0]) regionDF [] [] rfl,
   assess_methods_never_return.2.2 (fun _ => [1]) [[1]] [[0]]⟩

/-- Claim C3: the disparate-impact score is the ratio of the minimum
group acceptance rate to the maximum group acceptance rate, defined
as 1.0 when the maximum rate is zero (no division error); with group
rates 0.2 and 0.8 the score is 0.25. -/
theorem disparate_impact_ratio_and_example :
    (∀ (col : List String) (preds : List ℚ) (mx mn : ℚ),
      pyMax (groupRates col preds) = .ok mx →
      pyMin (groupRates col preds) = .ok mn →
      disparateImpactAttr col preds = if mx = 0 then 1 else mn / mx) ∧
    disparateImpactAttr ["X", "X", "X", "X", "X", "Y", "Y", "Y", "Y", "Y"]
      [1, 0, 0, 0, 0, 1, 1, 1, 1, 0] = 1/4 := by
  constructor
  · intro col preds mx mn hmx hmn
    unfold disparateImpactAttr
    rw [hmx, hmn]
  · have h2 : maskSelect ["X", "X", "X", "X", "X", "Y", "Y", "Y", "Y", "Y"]
        [1, 0, 0, 0, 0, 1, 1, 1, 1, 0] "X" = [1, 0, 0, 0, 0] := by
      simp [maskSelect]
    have h3 : maskSelect ["X", "X", "X", "X", "X", "Y", "Y", "Y", "Y", "Y"]
        [1, 0, 0, 0, 0, 1, 1, 1, 1, 0] "Y" = [1, 1, 1, 1, 0] := by
      simp [maskSelect]
    have h4 : groupRates ["X", "X", "X", "X", "X", "Y", "Y", "Y", "Y", "Y"]
        [1, 0, 0, 0, 0, 1, 1, 1, 1, 0] = [1/5, 4/5] := by
      simp [groupRates,
        show uniqueVals ["X", "X", "X", "X", "X", "Y", "Y", "Y", "Y", "Y"] = ["X", "Y"]
          by decide,
        groupAcceptanceRate, h2, h3]
      norm_num
    simp [disparateImpactAttr, h4, pyMax, pyMin]
    norm_num [max_def, min_def]

/-- Witness for C3: the ratio form instantiated on the two-record
column A, B with predictions 1, 0 (max rate 1, min rate 0). -/
theorem disparate_impact_ratio_witness :
    disparateImpactAttr ["A", "B"] [1, 0] = if (1 : ℚ) = 0 then 1 else 0 / 1 :=
  disparate_impact_ratio_and_example.1 ["A", "B"] [1, 0] 1 0
    (by
      have h4 : groupRates ["A", "B"] [1, 0] = [1, 0] := by
        simp [groupRates, show uniqueVals ["A", "B"] = ["A", "B"] by decide,
          groupAcceptanceRate, maskSelect]
      simp [pyMax, h4])
    (by
      have h4 : groupRates ["A", "B"] [1, 0] = [1, 0] := by
        simp [groupRates, show uniqueVals ["A", "B"] = ["A", "B"] by decide,
          groupAcceptanceRate, maskSelect]
      simp [pyMin, h4])

/-! ## Claim theorems: robustness -/

theorem zipWith_add_zero_row (r n : List ℚ) (h : r.length = n.length) :
    List.zipWith (· + ·) r (List.map (fun z => (0 : ℚ) * z) n) = r := by
  induction r generalizing n with
  | nil => simp
  | cons x xs ih =>
    cases n with
    | nil => simp at h
    | cons y ys =>
      have hx : x + 0 * y = x := by ring
      simp only [List.map_cons, List.zipWith_cons_cons, hx, ih ys (by simpa using h)]

/-- Claim C7: perturbing with noise scale 0 is the identity — the
gaussian noise at scale 0 is exactly 0 everywhere, so the perturbed
dataset is numerically identical to the input. -/
theorem perturb_zero_scale_identity (testData draws : List (List ℚ))
    (h : List.Forall₂ (fun r n => r.length = n.length) testData draws) :
    perturbDataset testData 0 draws = testData := by
  unfold perturbDataset addNoise gaussianNoise
  induction h with
  | nil => rfl
  | cons hlen _htail ih =>
    simp only [List.map_cons, List.zipWith_cons_cons]
    rw [zipWith_add_zero_row _ _ hlen, ih]

/-- Witness for C7: a one-row dataset with nonzero draws is unchanged
at scale 0. -/
theorem perturb_zero_scale_identity_witness :
    perturbDataset [[3, 4]] 0 [[1, 2]] = [[3, 4]] :=
  perturb_zero_scale_identity [[3, 4]] [[1, 2]]
    (List.Forall₂.cons rfl List.Forall₂.nil)

/-- Counterexample for C6: designate column 0 categorical and column 1
numeric; perturbing the one-record dataset [[5, 2]] with draws [[1, 1]]
changes the categorical entry from 5 to 5.1 — the source adds noise to
every entry, with no exclusion of categorical fields. -/
theorem perturb_categorical_counterexample :
    ¬ preservesCategoricalFields (fun j => j != 0) := by
  intro h
  have h0 := h [[5, 2]] [[1, 1]] 0 0 rfl
  simp [entry, perturbDataset, addNoise, gaussianNoise] at h0

theorem zipWith_add_getD (a b : List ℚ) (j : Nat) (ha : j < a.length)
    (hb : j < b.length) :
    (List.zipWith (· + ·) a b).getD j 0 = a.getD j 0 + b.getD j 0 := by
  induction a generalizing b j with
  | nil => simp at ha
  | cons x xs ih =>
    cases b with
    | nil => simp at hb
    | cons y ys =>
      cases j with
      | zero => simp
      | succ k =>
        simp only [List.zipWith_cons_cons, List.getD_cons_succ]
        exact ih ys k (by simpa using ha) (by simpa using hb)

theorem zipWith_rows_getD (f : List ℚ → List ℚ → List ℚ) (a b : List (List ℚ))
    (i : Nat) (ha : i < a.length) (hb : i < b.length) :
    (List.zipWith f a b).getD i [] = f (a.getD i []) (b.getD i []) := by
  induction a generalizing b i with
  | nil => simp at ha
  | cons x xs ih =>
    cases b with
    | nil => simp at hb
    | cons y ys =>
      cases i with
      | zero => simp
      | succ k =>
        simp only [List.zipWith_cons_cons, List.getD_cons_succ]
        exact ih ys k (by simpa using ha) (by simpa using hb)

theorem map_mul_getD (c : ℚ) (l : List ℚ) (j : Nat) (h : j < l.length) :
    (List.map (fun z => c * z) l).getD j 0 = c * l.getD j 0 := by
  induction l generalizing j with
  | nil => simp at h
  | cons x xs ih =>
    cases j with
    | zero => simp
    | succ k =>
      simp only [List.map_cons, List.getD_cons_succ]
      exact ih k (by simpa using h)

theorem map_row_getD (c : ℚ) (m : List (List ℚ)) (i : Nat) (h : i < m.length) :
    (List.map (List.map (fun z => c * z)) m).getD i []
      = List.map (fun z => c * z) (m.getD i []) := by
  induction m generalizing i with
  | nil => simp at h
  | cons r rs ih =>
    cases i with
    | zero => simp
    | succ k =>
      simp only [List.map_cons, List.getD_cons_succ]
      exact ih k (by simpa using h)

/-- Claim C6 as amended: within the carrier of the dataset, the
perturbation adds `0.1` times the standard-normal draw to *every*
entry — numeric or not; an entry is preserved exactly when its draw
is zero, and no field is excluded. -/
theorem perturb_adds_noise_to_every_entry (testData draws : List (List ℚ))
    (i j : Nat) (hi : i < testData.length) (hid : i < draws.length)
    (hj : j < (testData.getD i []).length) (hjd : j < (draws.getD i []).length) :
    entry (perturbDataset testData (1/10) draws) i j
      = entry testData i j + (1/10) * entry draws i j := by
  unfold entry perturbDataset addNoise gaussianNoise
  rw [zipWith_rows_getD _ _ _ i hi (by simpa using hid), map_row_getD _ _ _ hid,
    zipWith_add_getD _ _ j hj (by simpa using hjd), map_mul_getD _ _ _ hjd]

/-- Witness for the amended statement of C6: entry (0,1) of the perturbed
[[5, 2]] with draws [[1, 1]]. -/
theorem perturb_adds_noise_to_every_entry_witness :
    entry (perturbDataset [[5, 2]] (1/10) [[1, 1]]) 0 1
      = entry [[5, 2]] 0 1 + (1/10) * entry [[1, 1]] 0 1 :=
  perturb_adds_noise_to_every_entry [[5, 2]] [[1, 1]] 0 1
    (by decide) (by decide) (by decide) (by decide)

theorem zipWith_decide_eq_replicate (n : Nat) (c : ℚ) :
    List.zipWith (fun a b => decide (a = b)) (List.replicate n c) (List.replicate n c)
      = List.replicate n true := by
  induction n with
  | zero => rfl
  | succ k ih => simp [List.replicate_succ, ih]

theorem npMeanBool_replicate_true (n : Nat) (h : n ≠ 0) :
    npMeanBool (List.replicate n true) = some 1 := by
  unfold npMeanBool
  simp only [List.length_replicate, h, if_false, List.count_replicate_self,
    Option.some.injEq]
  exact div_self (by exact_mod_cast h)

/-- Claim C8: a constant-output model (whose predictions depend only
on the record count, not the record contents) gets adversarial
robustness score 1.0 on any nonempty dataset, whatever the draws. -/
theorem constant_model_adversarial_score_one (model : List (List ℚ) → List ℚ)
    (c : ℚ) (testData draws : List (List ℚ))
    (hmodel : ∀ d, model d = List.replicate d.length c)
    (hlen : draws.length = testData.length) (hne : testData ≠ []) :
    checkAdversarialRobustness model testData draws = some 1 := by
  simp only [checkAdversarialRobustness, agreementAtScale]
  have hplen : (perturbDataset testData (1/10) draws).length = testData.length := by
    simp [perturbDataset, addNoise, gaussianNoise, hlen]
  rw [hmodel testData, hmodel (perturbDataset testData (1/10) draws), hplen,
    zipWith_decide_eq_replicate]
  exact npMeanBool_replicate_true _ (by simpa [List.length_eq_zero] using hne)

/-- Witness for C8: a constant-7 model on a two-record dataset. -/
theorem constant_model_adversarial_score_one_witness :
    checkAdversarialRobustness (fun d => List.replicate d.length 7)
      [[1], [2]] [[0], [0]] = some 1 :=
  constant_model_adversarial_score_one (fun d => List.replicate d.length 7) 7
    [[1], [2]] [[0], [0]] (fun _ => rfl) rfl (by simp)

theorem npMeanBool_mem_unit {xs : List Bool} {r : ℚ}
    (h : npMeanBool xs = some r) : 0 ≤ r ∧ r ≤ 1 := by
  unfold npMeanBool at h
  by_cases hl : xs.length = 0
  · simp [hl] at h
  · simp only [hl, if_false, Option.some.injEq] at h
    subst h
    have hpos : (0 : ℚ) < (xs.length : ℚ) := by
      exact_mod_cast Nat.pos_of_ne_zero hl
    constructor
    · exact div_nonneg (by positivity) hpos.le
    · rw [div_le_one hpos]
      exact_mod_cast List.count_le_length true xs

theorem optionMapList_mem {α β : Type} {f : α → Option β} {l : List α}
    {out : List β} (h : optionMapList f l = some out) :
    ∀ y ∈ out, ∃ x, x ∈ l ∧ f x = some y := by
  induction l generalizing out with
  | nil =>
    simp only [optionMapList, Option.some.injEq] at h
    subst h
    simp
  | cons a as ih =>
    unfold optionMapList at h
    cases hf : f a with
    | none => rw [hf] at h; exact Option.noConfusion h
    | some y0 =>
      rw [hf] at h
      cases hrest : optionMapList f as with
      | none => rw [hrest] at h; exact Option.noConfusion h
      | some ys =>
        rw [hrest] at h
        have h2 : y0 :: ys = out := Option.some.inj h
        subst h2
        intro y hy
        rcases List.mem_cons.1 hy with h1 | h1
        · exact ⟨a, List.mem_cons_self a as, h1 ▸ hf⟩
        · rcases ih hrest y h1 with ⟨x, hx, hfx⟩
          exact ⟨x, List.mem_cons_of_mem a hx, hfx⟩

theorem npMean_mem_unit {l : List ℚ} {r : ℚ} (hb : ∀ x ∈ l, 0 ≤ x ∧ x ≤ 1)
    (h : npMean l = some r) : 0 ≤ r ∧ r ≤ 1 := by
  unfold npMean at h
  by_cases hl : l.length = 0
  · simp [hl] at h
  · simp only [hl, if_false, Option.some.injEq] at h
    subst h
    exact mean_mem_unit hb

theorem stability_score_mem_unit {model : List (List ℚ) → List ℚ}
    {testData : List (List ℚ)} {runs : List (ℚ × List (List ℚ))} {c : ℚ}
    (hc : checkStabilityUnderDataPerturbations model testData runs = some c) :
    0 ≤ c ∧ c ≤ 1 := by
  unfold checkStabilityUnderDataPerturbations at hc
  cases hs : optionMapList (fun run => agreementAtScale model testData run.1 run.2) runs with
  | none => rw [hs] at hc; exact Option.noConfusion hc
  | some scores =>
    rw [hs] at hc
    have hc2 : npMean scores = some c := hc
    refine npMean_mem_unit ?_ hc2
    intro x hx
    obtain ⟨run, _, hrun⟩ := optionMapList_mem hs x hx
    exact npMeanBool_mem_unit (by simpa [agreementAtScale] using hrun)

/-- Claim C9: whenever the three sub-checks produce scores, the
aggregate robustness score is their arithmetic mean, and — because
each sub-score is a prediction-agreement fraction in [0, 1] — the
aggregate lies in [0, 1]. -/
theorem robustness_aggregate_mean (model : List (List ℚ) → List ℚ)
    (testData draws oodData : List (List ℚ)) (runs : List (ℚ × List (List ℚ)))
    (a b c : ℚ)
    (ha : checkAdversarialRobustness model testData draws = some a)
    (hb : checkOutOfDistributionPerformance model testData oodData = some b)
    (hc : checkStabilityUnderDataPerturbations model testData runs = some c) :
    assessRobustnessSpec model testData draws oodData runs
      = some ((a + b + c) / 3) ∧
    0 ≤ (a + b + c) / 3 ∧ (a + b + c) / 3 ≤ 1 := by
  have hau : 0 ≤ a ∧ a ≤ 1 :=
    npMeanBool_mem_unit
      (by simpa [checkAdversarialRobustness, agreementAtScale] using ha)
  have hbu : 0 ≤ b ∧ b ≤ 1 :=
    npMeanBool_mem_unit
      (by simpa [checkOutOfDistributionPerformance] using hb)
  have hcu : 0 ≤ c ∧ c ≤ 1 := stability_score_mem_unit hc
  refine ⟨?_, ?_, ?_⟩
  · simp [assessRobustnessSpec, ha, hb, hc]
  · have h0 : 0 ≤ a + b + c := by linarith [hau.1, hbu.1, hcu.1]
    positivity
  · rw [div_le_one (by norm_num : (0:ℚ) < 3)]
    linarith [hau.2, hbu.2, hcu.2]

/-- Witness for C9: a constant-1 model on one record, with all three
sub-scores equal to 1. -/
theorem robustness_aggregate_mean_witness :
    assessRobustnessSpec (fun d => List.replicate d.length 1) [[1]] [[0]] [[1]]
      [((1 : ℚ)/10, [[0]])] = some ((1 + 1 + 1) / 3) ∧
    0 ≤ ((1 : ℚ) + 1 + 1) / 3 ∧ ((1 : ℚ) + 1 + 1) / 3 ≤ 1 :=
  robustness_aggregate_mean (fun d => List.replicate d.length 1)
    [[1]] [[0]] [[1]] [((1 : ℚ)/10, [[0]])] 1 1 1
    (by simp [checkAdversarialRobustness, agreementAtScale, perturbDataset, addNoise,
      gaussianNoise, npMeanBool])
    (by simp [checkOutOfDistributionPerformance, npMeanBool])
    (by simp [checkStabilityUnderDataPerturbations, optionMapList, agreementAtScale,
      perturbDataset, addNoise, gaussianNoise, npMeanBool, npMean])
